import Mathlib

/-!
Verification development for the Analysis Orchestration Pipeline of the
ai-smart-contract-clause-explainer repository.

The repository ships a web front end (src/apps/web) together with a design
specification of the pipeline core; the pipeline itself (Verifier, Analyzer
Adapter Registry, Explanation Synthesizer, Risk Aggregator, Diff Engine,
Orchestrator) is described by the spec and by scaffold instructions but has
no implementation under src/.  Definitions below therefore come in two
groups: faithful shallow embeddings of the TypeScript code that does exist
(the RiskAssessment component), and models of the missing pipeline
components built from the specification text, each marked
`Modelled from the spec:` in its doc comment.
-/

/- ===== Shared pipeline vocabulary (spec §3, §4.5) ===== -/

/-- Modelled from the spec: the fixed enumerated set of Risk categories
(§3 Risk invariant, §4.5 tie-break priority order). -/
inductive RiskCategory
  | accessControl
  | financial
  | technical
  | regulatory
  | informational
deriving DecidableEq, Fintype

/-- Modelled from the spec: category priority used to break ties in
severity ranking, access-control > financial > technical > regulatory >
informational (§4.5); a smaller number means higher priority. -/
def categoryPriority : RiskCategory → Nat
  | .accessControl => 0
  | .financial => 1
  | .technical => 2
  | .regulatory => 3
  | .informational => 4

/-- The fixed enumerated Risk category set, listed in tie-break priority
order (§4.5). -/
def riskCategoryUniverse : List RiskCategory :=
  [.accessControl, .financial, .technical, .regulatory, .informational]

/-- Modelled from the spec: Finding/tool severities; `informational` is the
severity of the synthetic Finding produced for an unavailable tool (§4.2). -/
inductive Severity
  | critical
  | high
  | medium
  | low
  | informational
deriving DecidableEq

/- ===== C1: Explanation Synthesizer, cite-or-refuse (spec §4.4) ===== -/

/-- Modelled from the spec: an EvidenceSpan is a located excerpt usable as a
citation target (§3); document id plus a line range. -/
structure EvidenceSpan where
  docId : Nat
  lineStart : Nat
  lineEnd : Nat
deriving DecidableEq

/-- Modelled from the spec: the Evidence Store as the set of spans it holds
(§2, §8 citation coverage). -/
abbrev EvidenceStore := List EvidenceSpan

/-- Modelled from the spec: one sentence of a generated explanation;
`asserted` marks a sentence asserting a fact, `citations` is its cited span
set (§4.4). -/
structure ClaimSentence where
  asserted : Bool
  citations : List EvidenceSpan
deriving DecidableEq

/-- Modelled from the spec: a candidate Claim produced by the language-model
backend before the post-generation citation check (§4.4). -/
structure ClaimDraft where
  topic : Nat
  sentences : List ClaimSentence
deriving DecidableEq

/-- Modelled from the spec: a sentence passes the post-generation check when
it asserts nothing, or when at least one of its citations resolves to a span
actually present in the Evidence Store (§4.4). -/
def sentenceSupported (store : EvidenceStore) (s : ClaimSentence) : Bool :=
  !s.asserted || s.citations.any (fun c => decide (c ∈ store))

/-- All citations carried by a draft Claim. -/
def claimCitations (d : ClaimDraft) : List EvidenceSpan :=
  d.sentences.foldr (fun s acc => s.citations ++ acc) []

/-- Modelled from the spec: a Claim may be surfaced only if every asserted
sentence is covered by the cited span set and the Claim carries at least one
citation resolving into the Evidence Store (§3 Claim invariant, §4.4). -/
def claimFullyCited (store : EvidenceStore) (d : ClaimDraft) : Bool :=
  d.sentences.all (sentenceSupported store) &&
    (claimCitations d).any (fun c => decide (c ∈ store))

/-- Modelled from the spec: reasons carried by a Refusal marker (§4.4). -/
inductive RefusalReason
  | insufficientEvidence
deriving DecidableEq

/-- Modelled from the spec: an entry of a completed run's Claims list is
either a surfaced Claim or a first-class Refusal entry (§4.4, §7). -/
inductive SynthEntry
  | claim (d : ClaimDraft)
  | refusal (reason : RefusalReason)
deriving DecidableEq

/-- Modelled from the spec: the Explanation Synthesizer's post-generation
enforcement; a draft failing the citation check is discarded whole and
replaced, in place, by a Refusal carrying the reason (§4.4). -/
def synthesize (store : EvidenceStore) (drafts : List ClaimDraft) : List SynthEntry :=
  drafts.map (fun d =>
    if claimFullyCited store d then .claim d else .refusal .insufficientEvidence)

/- ===== C2 and C3: Risk Aggregator (spec §4.5) ===== -/

/-- Modelled from the spec: one input to the Risk Aggregator, a Finding or a
synthesized risk Claim, carrying the per-source probability and impact in
[0,1] and its discovery index (§4.5). -/
structure RiskSource where
  sourceId : Nat
  category : RiskCategory
  probability : ℚ
  impact : ℚ
  discovery : Nat
deriving DecidableEq

/-- Modelled from the spec: a Risk is a scored, categorized assessment that
references the Findings/Claims it was derived from (§3). -/
structure Risk where
  category : RiskCategory
  score : ℚ
  sourceRefs : List Nat
deriving DecidableEq

/-- Modelled from the spec: the deterministic scoring function
`calculated_risk = f(probability, impact)` (§4.5). -/
def calculatedRisk (p i : ℚ) : ℚ := p * i

/-- Modelled from the spec: the Risk derived from a single source, keeping
the reference back to that source (§3 no-orphan invariant). -/
def riskOf (s : RiskSource) : Risk :=
  ⟨s.category, calculatedRisk s.probability s.impact, [s.sourceId]⟩

/-- Ranking key for the aggregator's canonical order: risk score descending,
then category priority, then earliest discovery (§4.5 tie-breaking), with
the remaining fields appended so that the key identifies a source uniquely. -/
abbrev RankKey := Lex (ℚᵒᵈ × Lex (Nat × Lex (Nat × Lex (ℚ × Lex (ℚ × Nat)))))

/-- The ranking key of a source (see `RankKey`). -/
def rankKey (s : RiskSource) : RankKey :=
  toLex (OrderDual.toDual (calculatedRisk s.probability s.impact),
    toLex (categoryPriority s.category,
      toLex (s.discovery, toLex (s.probability, toLex (s.impact, s.sourceId)))))

/-- The aggregator's ranking order on sources (severity ranking with the
§4.5 tie-break chain). -/
def rankLE (a b : RiskSource) : Prop := rankKey a ≤ rankKey b

instance : DecidableRel rankLE :=
  fun a b => inferInstanceAs (Decidable (rankKey a ≤ rankKey b))

instance : IsTotal RiskSource rankLE :=
  ⟨fun a b => le_total (rankKey a) (rankKey b)⟩

instance : IsTrans RiskSource rankLE :=
  ⟨fun _ _ _ hab hbc => le_trans hab hbc⟩

instance : IsAntisymm RiskSource rankLE := by
  constructor
  intro a b hab hba
  have hk : rankKey a = rankKey b := le_antisymm hab hba
  obtain ⟨ia, ca, pa, ma, da⟩ := a
  obtain ⟨ib, cb, pb, mb, db⟩ := b
  simp only [rankKey, toLex_inj, Prod.mk.injEq, OrderDual.toDual_inj] at hk
  obtain ⟨-, hcat, hdisc, hp, hm, hid⟩ := hk
  have hc : ca = cb := by
    have hinj : ∀ x y : RiskCategory, categoryPriority x = categoryPriority y → x = y := by
      decide
    exact hinj ca cb hcat
  simp_all

/-- Modelled from the spec: the aggregator's canonical presentation of its
input Finding/Claim set; exact duplicates from re-runs are dropped (§4.2)
and the remaining sources are put into the severity-ranking order (§4.5),
so the output depends only on the set of inputs. -/
def canonicalSources (l : List RiskSource) : List RiskSource :=
  List.insertionSort rankLE l.dedup

/-- Modelled from the spec: the Risk Aggregator, merging a Finding/Claim
set into a deterministic, canonically ordered Risk list (§4.5). -/
def aggregateRisks (l : List RiskSource) : List Risk :=
  (canonicalSources l).map riskOf

/- ===== C4: Diff Engine (spec §4.6) ===== -/

/-- Modelled from the spec: the part of a completed AnalysisRun the Diff
Engine consumes; symbol identities (by signature) and the run's Risks keyed
by stable Risk identity with their scores (§4.6). -/
structure RunResult where
  symbols : Finset Nat
  risks : Finset (Nat × ℚ)
deriving DecidableEq

/-- The stable Risk identities present in a run. -/
def riskIds (a : RunResult) : Finset Nat := a.risks.image Prod.fst

/-- The set of scores a run records for one stable Risk identity. -/
def riskScoresAt (a : RunResult) (i : Nat) : Finset ℚ :=
  (a.risks.filter (fun p => p.1 = i)).image Prod.snd

/-- Modelled from the spec: the Diff produced from two runs: symbol set
difference and Risk-set difference (new/resolved/modified by stable Risk
identity, not by array position) (§4.6). -/
structure DiffResult where
  symbolsAdded : Finset Nat
  symbolsRemoved : Finset Nat
  risksNew : Finset Nat
  risksResolved : Finset Nat
  risksModified : Finset Nat
deriving DecidableEq

/-- Modelled from the spec: the Diff Engine on two AnalysisRuns of the same
contract identity (§4.6). -/
def diffRuns (a b : RunResult) : DiffResult where
  symbolsAdded := b.symbols \ a.symbols
  symbolsRemoved := a.symbols \ b.symbols
  risksNew := riskIds b \ riskIds a
  risksResolved := riskIds a \ riskIds b
  risksModified :=
    (riskIds a ∩ riskIds b).filter (fun i => riskScoresAt a i ≠ riskScoresAt b i)

/- ===== C5: Verifier proxy/beacon resolution (spec §4.1, §9) ===== -/

/-- Modelled from the spec: the fatal, non-retryable ingestion errors (§7). -/
inductive FatalIngestionError
  | cyclicProxy
  | hopBoundExceeded
  | unparsableArtifact
deriving DecidableEq

/-- Modelled from the spec: iterative proxy/beacon resolution with a
visited set of addresses and a hop bound; revisiting an address is a cyclic
reference and exceeding the hop bound is a terminal fatal error, never a
best-effort guess (§4.1, §9).  `lookup` is the injected chain capability
returning the next implementation address, or `none` at a terminal
implementation. -/
def resolveProxyAux (lookup : Nat → Option Nat) :
    Nat → List Nat → Nat → Except FatalIngestionError Nat
  | 0, _, _ => .error .hopBoundExceeded
  | fuel + 1, visited, addr =>
    if addr ∈ visited then .error .cyclicProxy
    else
      match lookup addr with
      | none => .ok addr
      | some next => resolveProxyAux lookup fuel (addr :: visited) next

/-- Modelled from the spec: the Verifier's resolution entry point; the hop
bound makes resolution terminate after a bounded number of hops (§4.1). -/
def resolveProxy (lookup : Nat → Option Nat) (hopBound start : Nat) :
    Except FatalIngestionError Nat :=
  resolveProxyAux lookup hopBound [] start

/- ===== C6: Analyzer fan-out and fan-in (spec §4.2, §7) ===== -/

/-- Modelled from the spec: a Finding as produced by the adapter layer
(§4.2); the producing tool, a severity, and a rule identifier. -/
structure PipelineFinding where
  tool : Nat
  severity : Severity
  ruleId : Nat
deriving DecidableEq

/-- Modelled from the spec: one adapter invocation after its retries are
exhausted; it either produced Findings or ended in a ToolError (§4.2). -/
structure AdapterRun where
  name : Nat
  outcome : Except Nat (List PipelineFinding)

/-- Modelled from the spec: the single synthetic Finding of severity
`informational` stating that a tool is unavailable (§4.2, §7). -/
def syntheticUnavailableFinding (name : Nat) : PipelineFinding :=
  ⟨name, .informational, 0⟩

/-- Modelled from the spec: fan-in of one adapter; a timed-out or erroring
adapter yields exactly the synthetic informational Finding instead of a
pipeline failure (§4.2). -/
def adapterFindings (a : AdapterRun) : List PipelineFinding :=
  match a.outcome with
  | .ok fs => fs
  | .error _ => [syntheticUnavailableFinding a.name]

/-- Modelled from the spec: fan-out over all applicable adapters with
independent fan-in; the pipeline itself never fails here and each adapter's
slot depends only on that adapter's own outcome (§4.2, §5). -/
def fanIn (adapters : List AdapterRun) : List (List PipelineFinding) :=
  adapters.map adapterFindings

/- ===== C7: Orchestrator stage results (spec §4.7, §6, §7) ===== -/

/-- Modelled from the spec: the terminal phase a run ends in; `REPORTED`
after all stages complete, `FAILED` recording the failed stage otherwise
(§4.7). -/
inductive RunPhase
  | reported
  | failed (stage : Nat)
deriving DecidableEq

/-- Modelled from the spec: the queryable record of a run; the outputs of
every completed stage together with the terminal phase (§4.7, §7). -/
structure RunRecord where
  completed : List Nat
  phase : RunPhase
deriving DecidableEq

/-- Modelled from the spec: sequential stage execution; each stage outcome
is the stage's output or its fatal error after stage-local retries, and a
failing stage moves the run to `FAILED` while preserving every
already-completed upstream stage output (§4.7). -/
def runPipelineAux : List (Except Nat Nat) → List Nat → Nat → RunRecord
  | [], acc, _ => ⟨acc, .reported⟩
  | .ok out :: rest, acc, idx => runPipelineAux rest (acc ++ [out]) (idx + 1)
  | .error _ :: _, acc, idx => ⟨acc, .failed idx⟩

/-- Modelled from the spec: run the pipeline over the given stage outcomes
(§4.7). -/
def runPipeline (stages : List (Except Nat Nat)) : RunRecord :=
  runPipelineAux stages [] 0

/-- Modelled from the spec: `get_results(run_id)` returns whatever stages
have completed, callable at any time, including on a `FAILED` terminal
record (§6, §7). -/
def getResults (r : RunRecord) : List Nat := r.completed

/- ===== C8: at-most-one active run per identity (spec §5, §7, §9) ===== -/

/-- Modelled from the spec: the Orchestrator's per-identity lease table of
active runs, plus the next fresh run id (§9). -/
structure OrchState where
  active : List (Nat × Nat)
  nextId : Nat
deriving DecidableEq

/-- Modelled from the spec: the outcome surfaced to a submitter; either a
newly started run or transparent attachment to the in-flight run, never an
error (§5, §7 ConcurrencyConflictError). -/
inductive SubmitOutcome
  | started (runId : Nat)
  | attached (runId : Nat)
deriving DecidableEq

/-- The run currently holding the lease for an identity, if any. -/
def lookupActive (st : OrchState) (ident : Nat) : Option Nat :=
  (st.active.find? (fun p => p.1 == ident)).map Prod.snd

/-- Modelled from the spec: submitting an analysis request; lease
acquisition is the at-most-one-concurrency enforcement point, and a second
submission for an identity with an active run attaches to it (§5, §9). -/
def submit (st : OrchState) (ident : Nat) : OrchState × SubmitOutcome :=
  match lookupActive st ident with
  | some rid => (st, .attached rid)
  | none => (⟨(ident, st.nextId) :: st.active, st.nextId + 1⟩, .started st.nextId)

/-- The number of active runs the lease table holds for an identity. -/
def activeRunCount (st : OrchState) (ident : Nat) : Nat :=
  (st.active.filter (fun p => p.1 == ident)).length

/- ===== C9 and C10: the RiskAssessment component =====
   Embedded from src/apps/web/src/components/analysis/RiskAssessment.tsx. -/

/-- Risk levels of the `RiskAssessment` interface
(RiskAssessment.tsx line 19). -/
inductive RiskLevel
  | critical
  | high
  | medium
  | low
deriving DecidableEq

/-- Categories of the `RiskAssessment` interface
(RiskAssessment.tsx line 20). -/
inductive AssessmentCategory
  | financial
  | operational
  | technical
  | regulatory
deriving DecidableEq

/-- The `RiskAssessment` interface of RiskAssessment.tsx (lines 13 to 25);
the display-irrelevant string fields are dropped, numeric scores are
embedded as rationals. -/
structure RiskAssessment where
  id : Nat
  risk_level : RiskLevel
  category : AssessmentCategory
  probability : ℚ
  impact_score : Option ℚ
  calculated_risk_score : ℚ
deriving DecidableEq

/-- A filter dropdown selection: the literal string `all` or one concrete
value (RiskAssessment.tsx lines 38 to 39). -/
inductive Selection (α : Type)
  | all
  | only (x : α)
deriving DecidableEq

/-- The risk-level condition of the filter: `selectedRiskLevel !== 'all' &&
risk.risk_level !== selectedRiskLevel` returns false
(RiskAssessment.tsx line 44). -/
def matchesLevel : Selection RiskLevel → RiskAssessment → Bool
  | .all, _ => true
  | .only l, r => r.risk_level == l

/-- The category condition of the filter (RiskAssessment.tsx line 45). -/
def matchesCategory : Selection AssessmentCategory → RiskAssessment → Bool
  | .all, _ => true
  | .only c, r => r.category == c

/-- `filteredRisks` of RiskAssessment.tsx (lines 43 to 47): keep a risk only
when it passes both selected filters. -/
def filteredRisks (risks : List RiskAssessment)
    (selLevel : Selection RiskLevel) (selCategory : Selection AssessmentCategory) :
    List RiskAssessment :=
  risks.filter (fun risk => matchesLevel selLevel risk && matchesCategory selCategory risk)

/-- `overallRiskScore` of RiskAssessment.tsx (lines 58 to 60):
`risks.reduce((sum, risk) => sum + risk.calculated_risk_score, 0) /
risks.length` when the list is non-empty, `0` otherwise. -/
def overallRiskScore (risks : List RiskAssessment) : ℚ :=
  if 0 < risks.length then
    risks.foldl (fun sum risk => sum + risk.calculated_risk_score) 0 / (risks.length : ℚ)
  else 0

/-- The comparator `(a, b) => b.calculated_risk_score -
a.calculated_risk_score` of RiskAssessment.tsx (line 237), as the order it
sorts into: descending calculated risk score. -/
def scoreDescOrder (a b : RiskAssessment) : Prop :=
  b.calculated_risk_score ≤ a.calculated_risk_score

instance : DecidableRel scoreDescOrder :=
  fun a b => inferInstanceAs (Decidable (b.calculated_risk_score ≤ a.calculated_risk_score))

instance : IsTotal RiskAssessment scoreDescOrder :=
  ⟨fun a b => le_total b.calculated_risk_score a.calculated_risk_score⟩

instance : IsTrans RiskAssessment scoreDescOrder :=
  ⟨fun _ _ _ hab hbc => le_trans hbc hab⟩

/-- The risk list as rendered by RiskAssessment.tsx (lines 236 to 237):
`filteredRisks.sort((a, b) => b.calculated_risk_score -
a.calculated_risk_score)`. -/
def displayedRisks (risks : List RiskAssessment)
    (selLevel : Selection RiskLevel) (selCategory : Selection AssessmentCategory) :
    List RiskAssessment :=
  List.insertionSort scoreDescOrder (filteredRisks risks selLevel selCategory)

/-- The two top-level render shapes of the component: the `Low Risk Profile`
empty state (RiskAssessment.tsx lines 128 to 144) or the risk overview with
the displayed risk list. -/
inductive AssessmentView
  | lowRiskProfile
  | overview (displayed : List RiskAssessment)
deriving DecidableEq

/-- The component's top-level branch: `if (risks.length === 0)` render the
`Low Risk Profile` empty state, otherwise the overview with the filtered,
sorted risk list (RiskAssessment.tsx lines 128 and 146 onwards). -/
def renderRiskAssessment (risks : List RiskAssessment)
    (selLevel : Selection RiskLevel) (selCategory : Selection AssessmentCategory) :
    AssessmentView :=
  if risks.length = 0 then .lowRiskProfile
  else .overview (displayedRisks risks selLevel selCategory)

/- ===== Concrete instances used by the witnesses ===== -/

/-- A concrete evidence span. -/
def span0 : EvidenceSpan := ⟨0, 1, 2⟩

/-- A concrete one-span Evidence Store. -/
def store0 : EvidenceStore := [span0]

/-- A draft whose only asserted sentence cites `span0`. -/
def draftGood : ClaimDraft := ⟨0, [⟨true, [span0]⟩]⟩

/-- A draft with an asserted sentence carrying no citation. -/
def draftBad : ClaimDraft := ⟨1, [⟨true, []⟩]⟩

/-- A concrete aggregator source. -/
def srcA : RiskSource := ⟨0, .accessControl, 1/2, 1/2, 0⟩

/-- A second concrete aggregator source. -/
def srcB : RiskSource := ⟨1, .technical, 1/3, 1/2, 1⟩

/-- A proxy lookup forming the 3-cycle 0 to 1 to 2 to 0. -/
def cycleLookup : Nat → Option Nat := fun a => some ((a + 1) % 3)

/-- An adapter that produced one Finding. -/
def goodAdapter : AdapterRun := ⟨0, .ok [⟨0, .high, 5⟩]⟩

/-- An adapter whose retries exhausted in a ToolError. -/
def badAdapter : AdapterRun := ⟨1, .error 0⟩

/-- An empty orchestrator state. -/
def st0 : OrchState := ⟨[], 0⟩

/-- A concrete displayed risk. -/
def ra0 : RiskAssessment := ⟨0, .high, .financial, 1/2, none, 3/4⟩

/- ===== Helper lemmas ===== -/

/-- Membership survives the aggregator's canonicalization. -/
theorem mem_canonicalSources {s : RiskSource} {l : List RiskSource} :
    s ∈ canonicalSources l ↔ s ∈ l := by
  unfold canonicalSources
  rw [(List.perm_insertionSort rankLE l.dedup).mem_iff, List.mem_dedup]

/-- The left fold of the component's score reduction is the list sum. -/
theorem foldl_add_calculated (l : List RiskAssessment) (a : ℚ) :
    l.foldl (fun sum risk => sum + risk.calculated_risk_score) a
      = a + (l.map (fun risk => risk.calculated_risk_score)).sum := by
  induction l generalizing a with
  | nil => simp
  | cons x xs ih => simp [ih, add_assoc]

/-- Running the pipeline over a successful prefix followed by a failing
stage accumulates exactly the prefix outputs and ends in `FAILED` at the
failing stage index. -/
theorem runPipelineAux_prefix_outputs (outs : List Nat) (e : Nat)
    (rest : List (Except Nat Nat)) (acc : List Nat) (idx : Nat) :
    runPipelineAux (outs.map Except.ok ++ Except.error e :: rest) acc idx
      = ⟨acc ++ outs, .failed (idx + outs.length)⟩ := by
  induction outs generalizing acc idx with
  | nil => simp [runPipelineAux]
  | cons o os ih =>
    simp only [List.map_cons, List.cons_append, runPipelineAux, List.append_eq, ih,
      RunRecord.mk.injEq, RunPhase.failed.injEq]
    refine ⟨by simp, by simp; omega⟩

/-- Every category is in the fixed enumerated category set. -/
theorem mem_riskCategoryUniverse (c : RiskCategory) : c ∈ riskCategoryUniverse := by
  cases c <;> simp [riskCategoryUniverse]

/- ===== The claims ===== -/

/-- Claim C1: in a completed run every surfaced Claim carries at least one
citation resolving to a span present in the Evidence Store and every
asserted sentence of it has a matching in-store citation, while a Claim
containing an asserted sentence with no matching citation is never surfaced
and instead appears as a Refusal carrying the reason. -/
theorem cite_or_refuse (store : EvidenceStore) (drafts : List ClaimDraft)
    (d : ClaimDraft) (hd : d ∈ drafts) :
    (SynthEntry.claim d ∈ synthesize store drafts →
      (∃ c ∈ claimCitations d, c ∈ store) ∧
        ∀ s ∈ d.sentences, s.asserted = true → ∃ c ∈ s.citations, c ∈ store) ∧
    (claimFullyCited store d = false →
      SynthEntry.refusal .insufficientEvidence ∈ synthesize store drafts ∧
        SynthEntry.claim d ∉ synthesize store drafts) := by
  constructor
  · intro hmem
    obtain ⟨d2, hd2, heq⟩ := List.mem_map.mp hmem
    by_cases h2 : claimFullyCited store d2
    · simp only [h2, if_true, SynthEntry.claim.injEq] at heq
      subst heq
      rw [claimFullyCited, Bool.and_eq_true, List.all_eq_true, List.any_eq_true] at h2
      obtain ⟨hall, c, hc, hcs⟩ := h2
      refine ⟨⟨c, hc, by simpa using hcs⟩, ?_⟩
      intro s hs hsa
      have hsup := hall s hs
      rw [sentenceSupported, hsa, Bool.not_true, Bool.false_or, List.any_eq_true] at hsup
      obtain ⟨c2, hc2, hc2s⟩ := hsup
      exact ⟨c2, hc2, by simpa using hc2s⟩
    · simp [h2] at heq
  · intro hfc
    constructor
    · exact List.mem_map.mpr ⟨d, hd, by simp [hfc]⟩
    · intro hmem
      obtain ⟨d2, hd2, heq⟩ := List.mem_map.mp hmem
      by_cases h2 : claimFullyCited store d2
      · simp only [h2, if_true, SynthEntry.claim.injEq] at heq
        subst heq
        simp [h2] at hfc
      · simp [h2] at heq

/-- Witness for C1: with a one-span store, the fully cited draft is
surfaced with its in-store citations, and the uncited draft appears as a
Refusal, never as a Claim. -/
theorem cite_or_refuse_witness :
    (draftGood ∈ [draftGood, draftBad]) ∧
      ((∃ c ∈ claimCitations draftGood, c ∈ store0) ∧
        ∀ s ∈ draftGood.sentences, s.asserted = true → ∃ c ∈ s.citations, c ∈ store0) ∧
      (SynthEntry.refusal .insufficientEvidence ∈ synthesize store0 [draftGood, draftBad] ∧
        SynthEntry.claim draftBad ∉ synthesize store0 [draftGood, draftBad]) := by
  refine ⟨by decide, ?_, ?_⟩
  · exact (cite_or_refuse store0 [draftGood, draftBad] draftGood (by decide)).1 (by decide)
  · exact (cite_or_refuse store0 [draftGood, draftBad] draftBad (by decide)).2 (by decide)

/-- Claim C2: every Risk the aggregator produces has its score in [0,1],
its category in the fixed enumerated set whose tie-break priority order is
access-control > financial > technical > regulatory > informational, and
references at least one source Finding/Claim. -/
theorem risk_invariants (sources : List RiskSource)
    (h : ∀ s ∈ sources, 0 ≤ s.probability ∧ s.probability ≤ 1 ∧
      0 ≤ s.impact ∧ s.impact ≤ 1) :
    (∀ r ∈ aggregateRisks sources,
        (0 ≤ r.score ∧ r.score ≤ 1) ∧
          r.category ∈ riskCategoryUniverse ∧ r.sourceRefs ≠ []) ∧
      riskCategoryUniverse.Pairwise (fun a b => categoryPriority a < categoryPriority b) := by
  constructor
  · intro r hr
    obtain ⟨s, hs, hrs⟩ := List.mem_map.mp hr
    subst hrs
    obtain ⟨hp0, hp1, hi0, hi1⟩ := h s (mem_canonicalSources.mp hs)
    refine ⟨⟨?_, ?_⟩, ?_, ?_⟩
    · simpa [riskOf, calculatedRisk] using mul_nonneg hp0 hi0
    · simpa [riskOf, calculatedRisk] using mul_le_one₀ hp1 hi0 hi1
    · exact mem_riskCategoryUniverse _
    · simp [riskOf]
  · decide

/-- Witness for C2: a singleton source set with probability and impact 1/2
satisfies the bounds and yields Risks meeting every invariant. -/
theorem risk_invariants_witness :
    (∀ s ∈ [srcA], 0 ≤ s.probability ∧ s.probability ≤ 1 ∧
        0 ≤ s.impact ∧ s.impact ≤ 1) ∧
      ∀ r ∈ aggregateRisks [srcA],
        (0 ≤ r.score ∧ r.score ≤ 1) ∧
          r.category ∈ riskCategoryUniverse ∧ r.sourceRefs ≠ [] := by
  have hh : ∀ s ∈ [srcA], 0 ≤ s.probability ∧ s.probability ≤ 1 ∧
      0 ≤ s.impact ∧ s.impact ≤ 1 := by
    intro s hs
    rw [List.mem_singleton] at hs
    subst hs
    refine ⟨by norm_num [srcA], by norm_num [srcA], by norm_num [srcA], by norm_num [srcA]⟩
  exact ⟨hh, (risk_invariants [srcA] hh).1⟩

/-- Claim C3: the Risk Aggregator is idempotent and diff-stable: two
presentations of the same Finding/Claim set, in any arrival order, produce
exactly the same Risk list with identical scores and categories. -/
theorem aggregation_idempotent (l1 l2 : List RiskSource) (h : l1.Perm l2) :
    aggregateRisks l1 = aggregateRisks l2 := by
  unfold aggregateRisks canonicalSources
  have hd : l1.dedup.Perm l2.dedup := h.dedup
  have hperm : (List.insertionSort rankLE l1.dedup).Perm (List.insertionSort rankLE l2.dedup) :=
    (List.perm_insertionSort rankLE l1.dedup).trans
      (hd.trans (List.perm_insertionSort rankLE l2.dedup).symm)
  rw [List.eq_of_perm_of_sorted hperm
    (List.sorted_insertionSort rankLE l1.dedup) (List.sorted_insertionSort rankLE l2.dedup)]

/-- Witness for C3: re-aggregating the two-source set with its elements
swapped yields byte-identical output. -/
theorem aggregation_idempotent_witness :
    ([srcA, srcB].Perm [srcB, srcA]) ∧
      aggregateRisks [srcA, srcB] = aggregateRisks [srcB, srcA] := by
  have hp : [srcA, srcB].Perm [srcB, srcA] := List.Perm.swap srcB srcA []
  exact ⟨hp, aggregation_idempotent _ _ hp⟩

/-- Claim C4: the Diff Engine is symmetric-safe: swapping the two runs
swaps added with removed (for symbols and for Risk identities) and reports
the same modified set, so both directions report the same changes. -/
theorem diff_symmetric (a b : RunResult) :
    (diffRuns a b).symbolsAdded = (diffRuns b a).symbolsRemoved ∧
      (diffRuns a b).symbolsRemoved = (diffRuns b a).symbolsAdded ∧
      (diffRuns a b).risksNew = (diffRuns b a).risksResolved ∧
      (diffRuns a b).risksResolved = (diffRuns b a).risksNew ∧
      (diffRuns a b).risksModified = (diffRuns b a).risksModified := by
  refine ⟨rfl, rfl, rfl, rfl, ?_⟩
  unfold diffRuns
  simp only
  rw [Finset.inter_comm]
  exact Finset.filter_congr (fun i _ => ne_comm)

/-- Claim C5: for every proxy/beacon chain that never reaches a terminal
implementation, including every cyclic chain of any loop length, the
Verifier's bounded resolution returns a FatalIngestionError instead of
looping or guessing; resolution is a total function of the hop bound, so it
always terminates within that bound. -/
theorem proxy_cycle_fatal (lookup : Nat → Option Nat)
    (h : ∀ a, (lookup a).isSome = true) (hopBound start : Nat) :
    ∃ e, resolveProxy lookup hopBound start = .error e := by
  have aux : ∀ fuel visited addr, ∃ e, resolveProxyAux lookup fuel visited addr = .error e := by
    intro fuel
    induction fuel with
    | zero => exact fun visited addr => ⟨.hopBoundExceeded, rfl⟩
    | succ n ih =>
      intro visited addr
      by_cases hv : addr ∈ visited
      · exact ⟨.cyclicProxy, by simp [resolveProxyAux, hv]⟩
      · obtain ⟨next, hnext⟩ := Option.isSome_iff_exists.mp (h addr)
        obtain ⟨e, he⟩ := ih (addr :: visited) next
        exact ⟨e, by simp [resolveProxyAux, hv, hnext, he]⟩
  exact aux hopBound [] start

/-- Witness for C5: the synthetic 3-cycle resolves to a fatal error within
the 10-hop bound. -/
theorem proxy_cycle_fatal_witness :
    (cycleLookup 0).isSome = true ∧
      ∃ e, resolveProxy cycleLookup 10 0 = .error e :=
  ⟨rfl, proxy_cycle_fatal cycleLookup (fun _ => rfl) 10 0⟩

/-- Claim C6: a timed-out or erroring adapter never fails the pipeline and
never touches the other adapters' fan-in slots: it contributes exactly one
synthetic Finding of severity informational, while every other adapter's
slot is computed from that adapter alone. -/
theorem adapter_failure_isolated (pre post : List AdapterRun) (bad : AdapterRun)
    (e : Nat) (h : bad.outcome = .error e) :
    fanIn (pre ++ bad :: post)
        = fanIn pre ++ [syntheticUnavailableFinding bad.name] :: fanIn post ∧
      (syntheticUnavailableFinding bad.name).severity = .informational ∧
      [syntheticUnavailableFinding bad.name].length = 1 := by
  refine ⟨?_, rfl, rfl⟩
  simp [fanIn, adapterFindings, h]

/-- Witness for C6: a failing adapter next to a healthy one yields the
synthetic informational Finding in its own slot only. -/
theorem adapter_failure_isolated_witness :
    badAdapter.outcome = .error 0 ∧
      fanIn ([goodAdapter] ++ badAdapter :: [])
        = fanIn [goodAdapter] ++ [syntheticUnavailableFinding badAdapter.name] :: fanIn [] :=
  ⟨rfl, (adapter_failure_isolated [goodAdapter] [] badAdapter 0 rfl).1⟩

/-- Claim C7: when the stages before stage N all succeeded and stage N
fails, the run ends in the FAILED terminal state recording stage N, and
get_results on the terminal record still returns the outputs of stages
1..N-1 unchanged. -/
theorem partial_results_preserved (outs : List Nat) (e : Nat)
    (rest : List (Except Nat Nat)) :
    getResults (runPipeline (outs.map Except.ok ++ Except.error e :: rest)) = outs ∧
      (runPipeline (outs.map Except.ok ++ Except.error e :: rest)).phase
        = .failed outs.length := by
  unfold runPipeline getResults
  rw [runPipelineAux_prefix_outputs]
  simp

/-- Claim C8: at most one AnalysisRun is active per ContractSnapshot
identity: starting from an identity with no active run, a first submission
starts one run and a second submission while it is active attaches to that
same run without error and without creating a second run, leaving exactly
one active run for the identity. -/
theorem at_most_one_active_run (st : OrchState) (ident : Nat)
    (h : activeRunCount st ident = 0) :
    activeRunCount (submit (submit st ident).1 ident).1 ident = 1 ∧
      (submit (submit st ident).1 ident).2 = .attached st.nextId ∧
      (submit st ident).2 = .started st.nextId ∧
      (submit (submit st ident).1 ident).1 = (submit st ident).1 := by
  have hfil : st.active.filter (fun p => p.1 == ident) = [] :=
    List.length_eq_zero.mp h
  have hnone : lookupActive st ident = none := by
    unfold lookupActive
    have : st.active.find? (fun p => p.1 == ident) = none := by
      rw [List.find?_eq_none]
      intro x hx hpx
      have hmem : x ∈ st.active.filter (fun p => p.1 == ident) :=
        List.mem_filter.mpr ⟨hx, hpx⟩
      rw [hfil] at hmem
      exact absurd hmem (List.not_mem_nil x)
    rw [this]
    rfl
  have h1 : submit st ident
      = (⟨(ident, st.nextId) :: st.active, st.nextId + 1⟩, .started st.nextId) := by
    simp [submit, hnone]
  have h2 : lookupActive (⟨(ident, st.nextId) :: st.active, st.nextId + 1⟩ : OrchState) ident
      = some st.nextId := by
    simp [lookupActive, List.find?]
  have h3 : submit (⟨(ident, st.nextId) :: st.active, st.nextId + 1⟩ : OrchState) ident
      = (⟨(ident, st.nextId) :: st.active, st.nextId + 1⟩, .attached st.nextId) := by
    simp [submit, h2]
  rw [h1]
  simp [h3, activeRunCount, List.filter_cons, hfil]

/-- Witness for C8: from the empty lease table, two submissions for
identity 7 start one run and attach the second request to it. -/
theorem at_most_one_active_run_witness :
    activeRunCount st0 7 = 0 ∧
      activeRunCount (submit (submit st0 7).1 7).1 7 = 1 ∧
      (submit (submit st0 7).1 7).2 = .attached st0.nextId ∧
      (submit st0 7).2 = .started st0.nextId ∧
      (submit (submit st0 7).1 7).1 = (submit st0 7).1 := by
  have h : activeRunCount st0 7 = 0 := rfl
  obtain ⟨ha, hb, hc, hd⟩ := at_most_one_active_run st0 7 h
  exact ⟨h, ha, hb, hc, hd⟩

/-- Claim C9: the RiskAssessment component's displayed overall risk score
is the arithmetic mean of the calculated risk scores for a non-empty risks
list; for the empty list it is 0 and the component renders the Low Risk
Profile empty state instead of the risk overview. -/
theorem overall_risk_score_spec (risks : List RiskAssessment)
    (selLevel : Selection RiskLevel) (selCategory : Selection AssessmentCategory) :
    (risks ≠ [] →
        overallRiskScore risks
          = (risks.map (fun risk => risk.calculated_risk_score)).sum / (risks.length : ℚ)) ∧
      overallRiskScore [] = 0 ∧
      renderRiskAssessment [] selLevel selCategory = .lowRiskProfile ∧
      (risks ≠ [] →
        renderRiskAssessment risks selLevel selCategory
          = .overview (displayedRisks risks selLevel selCategory)) := by
  refine ⟨?_, by simp [overallRiskScore], by simp [renderRiskAssessment], ?_⟩
  · intro hne
    have hl : 0 < risks.length := List.length_pos.mpr hne
    simp [overallRiskScore, hl, foldl_add_calculated]
  · intro hne
    have hl : risks.length ≠ 0 := by
      simpa [List.length_eq_zero] using hne
    simp [renderRiskAssessment, hl]

/-- Witness for C9: on a one-element risks list the overall risk score is
the mean of that list. -/
theorem overall_risk_score_spec_witness :
    ([ra0] ≠ ([] : List RiskAssessment)) ∧
      overallRiskScore [ra0]
        = ([ra0].map (fun risk => risk.calculated_risk_score)).sum / (([ra0].length : Nat) : ℚ) := by
  have hne : [ra0] ≠ ([] : List RiskAssessment) := by simp
  exact ⟨hne, (overall_risk_score_spec [ra0] .all .all).1 hne⟩

/-- Claim C10: for every risks list and every risk-level/category filter
selection, the rendered risk list contains exactly the risks matching both
selected filters (the whole list when both filters are all), ordered by
non-increasing calculated risk score. -/
theorem filtered_risks_spec (risks : List RiskAssessment)
    (selLevel : Selection RiskLevel) (selCategory : Selection AssessmentCategory) :
    (displayedRisks risks selLevel selCategory).Perm
        (filteredRisks risks selLevel selCategory) ∧
      (∀ risk, risk ∈ displayedRisks risks selLevel selCategory ↔
        risk ∈ risks ∧ matchesLevel selLevel risk = true ∧
          matchesCategory selCategory risk = true) ∧
      (displayedRisks risks selLevel selCategory).Sorted scoreDescOrder ∧
      filteredRisks risks .all .all = risks := by
  refine ⟨List.perm_insertionSort scoreDescOrder _, ?_, ?_, ?_⟩
  · intro risk
    rw [displayedRisks,
      (List.perm_insertionSort scoreDescOrder
        (filteredRisks risks selLevel selCategory)).mem_iff,
      filteredRisks, List.mem_filter, Bool.and_eq_true]
  · exact List.sorted_insertionSort scoreDescOrder _
  · simp [filteredRisks, matchesLevel, matchesCategory]
